import Mathlib

/-!
Verification development for the Summary Orchestration Engine of the
generic-video-site repository.

The Python sources under src/app are shallowly embedded as pure Lean
functions over explicit state:

  - app/database.py        : the VideoSummary and VideoSummaryVersion tables
                             become lists of rows inside a DB structure.
  - app/ai_summary/coordinator.py : start_video_summary, the handler
                             _process_video_summary, get_video_summary,
                             delete_video_summary and the jump-point
                             heuristic become functions DB -> result x DB.
  - app/ai_summary/task_queue.py : tasks become a list inside a Sys
                             structure; _process_task is a function on Sys.
  - app/ai_summary/transcription.py : transcribe_audio and
                             transcribe_with_timestamps, instrumented with a
                             Boolean recording whether the Whisper model was
                             invoked.

Text is modelled as List Char (abbreviated Str) so that the suffix and
substring reasoning needed for the tolerant path lookup stays within the
well-supported List API.  Timestamps are abstract Nat clock values supplied
as arguments; wall-clock formatting, float display and the derived display
labels are elided.  External workers (ffmpeg, Whisper, Ollama) are oracles:
their structured results are parameters, exactly in the shape the Python
code inspects.  Python float scores in the jump-point heuristic are scaled
by 200 to exact Nat values; the scaling is order-faithful because keyword
hits add exactly 2.0, the length term is min(1.0, len/200.0), and the two
score bands (with and without keyword hit) never overlap.
-/

set_option autoImplicit false

namespace VideoSite

/-- Text modelled as a list of characters. -/
abbrev Str := List Char

/-- Python str.lower restricted to the characters that occur here. -/
def lowerStr (s : Str) : Str := s.map Char.toLower

/-- Python str.strip: drop leading and trailing whitespace. -/
def trimStr (s : Str) : Str :=
  ((s.dropWhile Char.isWhitespace).reverse.dropWhile Char.isWhitespace).reverse

/-- Boolean substring test, embedding the Python operator in. -/
def hasSubstr (needle : Str) : Str → Bool
  | [] => needle.isEmpty
  | c :: rest => needle.isPrefixOf (c :: rest) || hasSubstr needle rest

/-- Python path.split(slash)[-1]: the final slash-separated component
(the whole string when no slash occurs). -/
def last_component (q : Str) : Str :=
  q.foldl (fun acc c => if c = '/' then [] else acc ++ [c]) []

/-- Status column of the video_summaries table (database.py line 40). -/
inductive SStatus
  | pending
  | processing
  | completed
  | failed
  | noAudio
deriving DecidableEq

/-- TaskStatus enumeration (task_queue.py lines 18-24). -/
inductive TStatus
  | pending
  | processing
  | completed
  | failed
  | cancelled
deriving DecidableEq

/-- Row of the video_summaries table (database.py lines 35-52). -/
structure VideoSummary where
  id : Nat
  video_path : Str
  status : SStatus
  summary : Option Str
  transcript : Option Str
  model_used : Option Str
  audio_duration_seconds : Option Nat
  processing_time_seconds : Option Nat
  error_message : Option Str
  generated_at : Nat
deriving DecidableEq

/-- Row of the video_summary_versions table (database.py lines 54-69).
The table carries a UNIQUE constraint on (video_path, version). -/
structure VideoSummaryVersion where
  video_path : Str
  version : Nat
  summary : Option Str
  transcript : Option Str
  model_used : Option Str
  processing_time_seconds : Option Nat
  generated_at : Nat
deriving DecidableEq

/-- The durable store: both tables plus the autoincrement counter for
video_summaries ids. -/
structure DB where
  summaries : List VideoSummary
  versions : List VideoSummaryVersion
  next_id : Nat
deriving DecidableEq

/-- Shape of the dict returned by the handler _process_video_summary;
only the keys the claims inspect are retained. -/
structure HandlerRes where
  success : Bool
  error : Option Str
  status : Option Str
  summary : Option Str
deriving DecidableEq

/-- In-memory task record (task_queue.py Task).  The data dict carries
video_path and summary_id; user_id and model_name ride along untouched and
are absorbed into the worker oracle. -/
structure Task where
  task_id : Nat
  video_path : Str
  summary_id : Nat
  status : TStatus
  result : Option HandlerRes
  error : Option Str
deriving DecidableEq

/-- Whole-system state: the durable store plus the in-memory task queue
(tasks map and the task-id supply). -/
structure Sys where
  db : DB
  tasks : List Task
  next_task_id : Nat
deriving DecidableEq

/-- Initial empty system. -/
def sys_init : Sys := { db := { summaries := [], versions := [], next_id := 1 }, tasks := [], next_task_id := 1 }

/-- Query(VideoSummary).filter(video_path == path).first() on the embedded
table: first row in insertion order with the exact path. -/
def find_summary (db : DB) (path : Str) : Option VideoSummary :=
  db.summaries.find? (fun r => r.video_path == path)

/-- Result dict of start_video_summary (coordinator.py lines 111-196):
success flag, error text, snapshot of the existing row when rejected,
task id when admitted. -/
structure StartRes where
  success : Bool
  error : Option Str
  existing_status : Option SStatus
  existing_summary : Option (Option Str)
  existing_generated_at : Option Nat
  task_id : Option Nat
deriving DecidableEq

/-- TaskQueue.add_task (task_queue.py lines 98-118): append a fresh pending
task and hand back its id. -/
def add_task (s : Sys) (video_path : Str) (summary_id : Nat) : Nat × Sys :=
  (s.next_task_id,
   { s with
       tasks := s.tasks ++ [{ task_id := s.next_task_id, video_path := video_path,
                              summary_id := summary_id, status := .pending,
                              result := none, error := none }],
       next_task_id := s.next_task_id + 1 })

/-- Reset branch of admission (coordinator.py lines 144-148): status back to
pending, error message cleared, generated_at stamped. -/
def reset_row (db : DB) (sid : Nat) (now : Nat) : DB :=
  { db with summaries := db.summaries.map fun r =>
      if r.id = sid then { r with status := .pending, error_message := none, generated_at := now } else r }

/-- Coordinator.start_video_summary (coordinator.py lines 73-196).  The
os.path.exists probe is the Boolean argument file_exists; the clock is the
argument now.  The dead local helpers inside the file-not-found branch have
no observable effect and are not modelled. -/
def start_video_summary (s : Sys) (video_path : Str) (force : Bool) (file_exists : Bool) (now : Nat) :
    StartRes × Sys :=
  if file_exists = false then
    ({ success := false, error := some (("Video file not found: ").data ++ video_path),
       existing_status := none, existing_summary := none, existing_generated_at := none,
       task_id := none }, s)
  else
    match find_summary s.db video_path with
    | some existing =>
      if existing.status = .completed ∧ force = false then
        ({ success := false, error := some ("Summary already exists for this video").data,
           existing_status := some existing.status, existing_summary := some existing.summary,
           existing_generated_at := some existing.generated_at, task_id := none }, s)
      else if (existing.status = .pending ∨ existing.status = .processing) ∧ force = false then
        ({ success := false, error := some ("Summary generation already in progress for this video").data,
           existing_status := some existing.status, existing_summary := none,
           existing_generated_at := some existing.generated_at, task_id := none }, s)
      else
        let s1 : Sys := { s with db := reset_row s.db existing.id now }
        let (tid, s2) := add_task s1 video_path existing.id
        ({ success := true, error := none, existing_status := none, existing_summary := none,
           existing_generated_at := none, task_id := some tid }, s2)
    | none =>
      let row : VideoSummary :=
        { id := s.db.next_id, video_path := video_path, status := .pending,
          summary := none, transcript := none,
          model_used := some ("whisper-base+llama3.2:7b").data,
          audio_duration_seconds := none, processing_time_seconds := none,
          error_message := none, generated_at := now }
      let s1 : Sys := { s with db := { s.db with summaries := s.db.summaries ++ [row], next_id := s.db.next_id + 1 } }
      let (tid, s2) := add_task s1 video_path row.id
      ({ success := true, error := none, existing_status := none, existing_summary := none,
         existing_generated_at := none, task_id := some tid }, s2)

/-- Whisper segment as the coordinator consumes it: keys start, end, text
(the Python key end is a Lean keyword, hence the field name stop).
Segment boundaries are modelled as integers: the heuristic applies
round and int only to turn them into display seconds. -/
structure Seg where
  start : Int
  stop : Int
  text : Str
deriving DecidableEq

/-- Jump point dict: seconds plus short title. -/
structure JumpPoint where
  seconds : Nat
  title : Str
deriving DecidableEq

/-- Keyword alternation of the heuristic regex (coordinator.py line 358),
searched case-insensitively anywhere in a segment text. -/
def keyword_list : List Str :=
  (["intro", "introduction", "overview", "setup", "install", "configure", "demo",
    "example", "concept", "definition", "recap", "summary", "conclusion",
    "best practice", "tip", "troubleshoot", "issue"] : List String).map String.data

/-- re.search of the keyword regex: some alternative occurs in the lowered text. -/
def kw_search (text : Str) : Bool :=
  keyword_list.any (fun k => hasSubstr k (lowerStr text))

/-- Segment score scaled by 200: the Python float score
(2 if keyword else 0) + min(1.0, len(text)/200.0) becomes
(400 if keyword else 0) + min 200 len.  The scaling preserves the exact
order and the exact ties of the float scores. -/
def score200 (text : Str) : Nat :=
  (if kw_search text then 400 else 0) + min 200 text.length

/-- int(max(0, round(s))) on an integral start time. -/
def clampSec (s : Int) : Nat := (max 0 s).toNat

/-- Stable insertion used by the stable sort below: x passes over y exactly
while y is strictly smaller, so equal keys keep their original order. -/
def insSorted {α : Type} (lt : α → α → Bool) (x : α) : List α → List α
  | [] => [x]
  | y :: ys => if lt y x then y :: insSorted lt x ys else x :: y :: ys

/-- Stable sort (insertion sort), embedding the stable Python list.sort. -/
def stableSortBy {α : Type} (lt : α → α → Bool) (l : List α) : List α :=
  l.foldr (insSorted lt) []

/-- Python slice l[::step] for step >= 1: every step-th element. -/
def takeEvery {α : Type} (step : Nat) : List α → List α
  | [] => []
  | x :: xs => x :: takeEvery step (xs.drop (step - 1))
termination_by l => l.length
decreasing_by simp [List.length_drop]; omega

/-- Python txt.split(sep)[0] for a fixed separator: the characters before
the first occurrence of the separator. -/
def firstSplitPart (sep : Str) : Str → Str
  | [] => []
  | c :: rest => if sep.isPrefixOf (c :: rest) then [] else c :: firstSplitPart sep rest

/-- Title of a heuristic jump point (coordinator.py line 383):
first sentence, stripped, at most 100 chars, defaulting to Jump. -/
def mk_title (txt : Str) : Str :=
  let t := (trimStr (firstSplitPart (". ").data txt)).take 100
  if t.isEmpty then ("Jump").data else t

/-- Candidate triples (score, seconds, text) built per segment
(coordinator.py lines 359-372): empty stripped texts are skipped, every
other segment contributes exactly one candidate. -/
def heuristic_candidates (segs : List Seg) : List (Nat × Nat × Str) :=
  segs.filterMap fun seg =>
    let text := trimStr seg.text
    if text.isEmpty then none
    else some (score200 text, clampSec seg.start, text)

/-- Fallback jump-point heuristic of the coordinator (coordinator.py lines
355-384): per-segment candidates, stable sort by descending score, top 20,
stable sort by start time, even downsampling to at most 8, then the
seconds/title dicts. -/
def heuristicJumpPoints (segs : List Seg) : List JumpPoint :=
  let candidates := heuristic_candidates segs
  let sorted := stableSortBy (fun a b => b.1 < a.1) candidates
  let top1 := sorted.take 20
  let top2 := stableSortBy (fun a b => a.2.1 < b.2.1) top1
  let top3 := if 8 < top2.length then (takeEvery (max 1 (top2.length / 8)) top2).take 8 else top2
  top3.map fun c => { seconds := c.2.1, title := mk_title c.2.2 }

/-- Result dict of AudioExtractionService.extract_audio
(audio_extraction.py lines 23-122). -/
structure ExtractRes where
  success : Bool
  audio_path : Option Str
  duration_seconds : Option Nat
  error : Option Str
deriving DecidableEq

/-- Result dict of TranscriptionService.transcribe_with_timestamps as the
handler consumes it.  On success the code reads the transcript, language
and segments keys unconditionally, so they are plain fields. -/
structure TranscribeTS where
  success : Bool
  transcript : Str
  language : Str
  segments : List Seg
  error : Option Str
deriving DecidableEq

/-- Result dict of SummarizationService.summarize_transcript as the handler
consumes it. -/
structure SummarizeRes where
  success : Bool
  summary : Str
  model_used : Option Str
  error : Option Str
deriving DecidableEq

/-- Oracle for one handler execution: the structured results of the three
external workers plus the curated jump points from the LLM (already
defaulted to [] on any exception, per the try/except at coordinator.py
lines 345-353) and the Whisper model identifier. -/
structure Oracle where
  extract : ExtractRes
  transcribe : TranscribeTS
  summarize : SummarizeRes
  ai_jump_points : List JumpPoint
  whisper_model_name : Str
deriving DecidableEq

/-- Coordinator._update_summary_status (coordinator.py lines 452-470):
set the status, and set error_message only when a truthy message is given. -/
def update_summary_status (db : DB) (sid : Nat) (st : SStatus) (error_message : Option Str) : DB :=
  { db with summaries := db.summaries.map fun r =>
      if r.id = sid then
        { r with status := st,
                 error_message :=
                   match error_message with
                   | some m => if m.isEmpty then r.error_message else some m
                   | none => r.error_message }
      else r }

/-- Decimal rendering of a Nat. -/
def natToStr (n : Nat) : Str := (toString n).data

/-- json.dumps of one jump-point dict with the default separators; string
escaping inside titles is elided. -/
def jpJsonOne (j : JumpPoint) : Str :=
  ("\x7b\"seconds\": ").data ++ natToStr j.seconds ++ (", \"title\": \"").data ++ j.title ++ ("\"\x7d").data

/-- json.dumps of the jump-point list. -/
def jpJson (l : List JumpPoint) : Str :=
  ("[").data ++ List.intercalate (", ").data (l.map jpJsonOne) ++ ("]").data

/-- ORDER BY version DESC LIMIT 1 on the rows of one path, combined with
the +1 / else 1 of coordinator.py lines 396-399: the maximum stored version
(0 when no row exists, so that next_ver is uniformly max + 1). -/
def max_version (db : DB) (path : Str) : Nat :=
  ((db.versions.filter (fun v => v.video_path == path)).map (fun v => v.version)).foldr Nat.max 0

/-- Shared failure exit of the handler: the outer except of
_process_video_summary (coordinator.py lines 433-450) marks the summary
failed with the exception text and returns the failure dict. -/
def fail_with (db : DB) (sid : Nat) (msg : Str) : HandlerRes × DB :=
  ({ success := false, error := some msg, status := none, summary := none },
   update_summary_status db sid .failed (some msg))

/-- Coordinator._process_video_summary (coordinator.py lines 221-450).
Progress-callback calls only touch the in-memory task and are applied by
process_task; the scoped temporary directory and file cleanup have no
durable effect and are elided.  processing_time abstracts
(utcnow - start_time).total_seconds(). -/
def process_video_summary (o : Oracle) (db0 : DB) (summary_id : Nat) (now processing_time : Nat) :
    HandlerRes × DB :=
  let db := update_summary_status db0 summary_id .processing none
  if o.extract.success = false then
    if hasSubstr ("no audio").data (lowerStr ((o.extract.error).getD [])) then
      let db2 := update_summary_status db summary_id .noAudio (some ("Video file has no audio track").data)
      ({ success := false, error := some ("Video has no audio track").data,
         status := some ("no_audio").data, summary := none }, db2)
    else
      fail_with db summary_id (("Audio extraction failed: ").data ++ (o.extract.error).getD [])
  else if o.transcribe.success = false then
    fail_with db summary_id (("Transcription failed: ").data ++ (o.transcribe.error).getD [])
  else if o.summarize.success = false then
    fail_with db summary_id (("Summarization failed: ").data ++ (o.summarize.error).getD [])
  else
    let transcript := o.transcribe.transcript
    let summary_text := o.summarize.summary
    let model_used := ("whisper-").data ++ o.whisper_model_name ++ ("+").data
      ++ (o.summarize.model_used).getD ("llama3.2:7b").data
    match db.summaries.find? (fun r => r.id == summary_id) with
    | none =>
      ({ success := true, error := none, status := none, summary := some summary_text }, db)
    | some video_summary =>
      let ai := if o.ai_jump_points.isEmpty then heuristicJumpPoints o.transcribe.segments
                else o.ai_jump_points
      let final_transcript :=
        if ai.isEmpty then transcript
        else transcript ++ ("\n\n[JUMP_POINTS]").data ++ jpJson ai
      let next_ver := max_version db video_summary.video_path + 1
      let row2 : VideoSummary :=
        { video_summary with
            summary := some summary_text, transcript := some final_transcript,
            status := .completed, model_used := some model_used,
            processing_time_seconds := some processing_time,
            audio_duration_seconds := o.extract.duration_seconds,
            error_message := none }
      let db2 : DB :=
        { db with
            summaries := db.summaries.map (fun r => if r.id = summary_id then row2 else r),
            versions := db.versions ++
              [{ video_path := video_summary.video_path, version := next_ver,
                 summary := some summary_text, transcript := some final_transcript,
                 model_used := some model_used, processing_time_seconds := some processing_time,
                 generated_at := now }] }
      ({ success := true, error := none, status := none, summary := some summary_text }, db2)

/-- TaskQueue._process_task (task_queue.py lines 203-254) for a task handed
over by the dispatcher (hence the pending guard: only pending ids sit in
the FIFO).  The registered handler _process_video_summary_task catches
every exception internally and always returns a dict, so the task is
always finalized through the completed branch with the dict as result. -/
def process_task (o : Oracle) (s : Sys) (task_id : Nat) (now processing_time : Nat) : Sys :=
  match s.tasks.find? (fun t => t.task_id == task_id) with
  | none => s
  | some t =>
    if t.status = .pending then
      let pr := process_video_summary o s.db t.summary_id now processing_time
      { s with
          db := pr.2,
          tasks := s.tasks.map fun u =>
            if u.task_id = task_id then { u with status := .completed, result := some pr.1, error := none }
            else u }
    else s

/-- One interleaving of Start calls and worker executions, with the force
flag free: the reachable system states. -/
inductive Reach : Sys → Prop
  | init : Reach sys_init
  | start (s : Sys) (path : Str) (force file_exists : Bool) (now : Nat) :
      Reach s → Reach (start_video_summary s path force file_exists now).2
  | work (s : Sys) (o : Oracle) (tid now pt : Nat) :
      Reach s → Reach (process_task o s tid now pt)

/-- Reachability when every Start call carries force = false. -/
inductive ReachNF : Sys → Prop
  | init : ReachNF sys_init
  | start (s : Sys) (path : Str) (file_exists : Bool) (now : Nat) :
      ReachNF s → ReachNF (start_video_summary s path false file_exists now).2
  | work (s : Sys) (o : Oracle) (tid now pt : Nat) :
      ReachNF s → ReachNF (process_task o s tid now pt)

/-- Task statuses counted as active by admission control. -/
def is_active (st : TStatus) : Bool :=
  match st with
  | .pending => true
  | .processing => true
  | _ => false

/-- Number of active tasks associated with one video path. -/
def active_count (s : Sys) (path : Str) : Nat :=
  s.tasks.countP (fun t => t.video_path == path && is_active t.status)

/-- Result dict of delete_video_summary. -/
structure DeleteRes where
  success : Bool
  error : Option Str
  message : Option Str
deriving DecidableEq

/-- Coordinator.delete_video_summary (coordinator.py lines 649-679): fetch
the row by exact path and delete it.  No statement touches the
video_summary_versions table and no relationship or foreign-key cascade
links the two tables (database.py lines 35-69). -/
def delete_video_summary (db : DB) (video_path : Str) : DeleteRes × DB :=
  match find_summary db video_path with
  | none => ({ success := false, error := some ("Summary not found").data, message := none }, db)
  | some row =>
    ({ success := true, error := none, message := some ("Summary deleted successfully").data },
     { db with summaries := db.summaries.filter (fun r => r.id != row.id) })

/-- SQLite LIKE with a pattern of the form percent-then-suffix: default
LIKE is case-insensitive, so the lowered suffix must end the lowered
column value.  LIKE wildcards inside the basename itself are not modelled. -/
def like_suffix (path : Str) (suffix : Str) : Bool :=
  (lowerStr suffix).isSuffixOf (lowerStr path)

/-- Tolerant filter of get_video_summary (coordinator.py lines 500-507):
exact path, or suffix match on slash or backslash plus the final component
of the queried path, in one OR query. -/
def tolerant_match (q : Str) (r_path : Str) : Bool :=
  r_path == q || like_suffix r_path ('/' :: last_component q)
    || like_suffix r_path ('\\' :: last_component q)

/-- ORDER BY generated_at DESC LIMIT 1 over the filtered rows: the row with
the greatest timestamp, first such row on ties. -/
def first_by_generated_desc (l : List VideoSummary) : Option VideoSummary :=
  l.foldl (fun acc r =>
    match acc with
    | none => some r
    | some a => if a.generated_at < r.generated_at then some r else acc) none

/-- Version rows for the queried path, ordered by version descending
(coordinator.py lines 512-514): note the filter is an exact match against
the caller-supplied path. -/
def versions_for (db : DB) (q : Str) : List VideoSummaryVersion :=
  stableSortBy (fun a b => b.version < a.version)
    (db.versions.filter (fun v => v.video_path == q))

/-- Python truthiness of an optional text column. -/
def truthy (s : Option Str) : Bool :=
  match s with
  | some t => !t.isEmpty
  | none => false

/-- Version descriptor of the payload; the derived display_model and
display_label strings render the same data and are elided. -/
structure VersionDescriptor where
  version : Nat
  generated_at : Nat
  model_used : Option Str
deriving DecidableEq

/-- One descriptor (coordinator.py lines 544-560), with the model_used
fallback v.model_used or video_summary.model_used. -/
def mk_descriptor (vs : VideoSummary) (v : VideoSummaryVersion) : VersionDescriptor :=
  { version := v.version, generated_at := v.generated_at,
    model_used :=
      match v.model_used with
      | some m => if m.isEmpty then vs.model_used else some m
      | none => vs.model_used }

/-- Payload dict of get_video_summary (coordinator.py lines 533-562). -/
structure GetPayload where
  video_path : Str
  summary : Option Str
  transcript : Option Str
  status : SStatus
  error_message : Option Str
  model_used : Option Str
  generated_at : Nat
  versions : List VersionDescriptor
deriving DecidableEq

/-- Payload assembly from the matched row and the version rows. -/
def mk_payload (vs : VideoSummary) (versions_list : List VideoSummaryVersion) : GetPayload :=
  { video_path := vs.video_path, summary := vs.summary, transcript := vs.transcript,
    status := vs.status, error_message := vs.error_message, model_used := vs.model_used,
    generated_at := vs.generated_at, versions := versions_list.map (mk_descriptor vs) }

/-- Coordinator.get_video_summary (coordinator.py lines 493-567).  The
backfill branch (lines 516-525) inserts a version-1 row keyed by the STORED
path of the matched summary while the surrounding queries use the
caller-supplied path; when a row with the stored path and version 1 already
exists, the UNIQUE constraint on (video_path, version) makes the commit
raise, the outer except swallows the error and the call returns none with
the store unchanged. -/
def get_video_summary (db : DB) (video_path : Str) (now : Nat) : Option GetPayload × DB :=
  match first_by_generated_desc (db.summaries.filter (fun r => tolerant_match video_path r.video_path)) with
  | none => (none, db)
  | some vs =>
    let versions_list := versions_for db video_path
    if truthy vs.summary = true ∧ vs.status = .completed ∧ versions_list = [] then
      if db.versions.any (fun v => v.video_path == vs.video_path && v.version == 1) then
        (none, db)
      else
        let db2 : DB := { db with versions := db.versions ++
          [{ video_path := vs.video_path, version := 1, summary := vs.summary,
             transcript := vs.transcript, model_used := vs.model_used,
             processing_time_seconds := none, generated_at := now }] }
        (some (mk_payload vs (versions_for db2 video_path)), db2)
    else
      (some (mk_payload vs versions_list), db)

/-- State of the TranscriptionService model slot: whether self.model is
loaded, whether a _load_model retry would succeed, and the model name. -/
structure WhisperState where
  model_loaded : Bool
  reload_ok : Bool
  model_name : Str
deriving DecidableEq

/-- Outcome of one whisper model.transcribe call: whether it raises, and
otherwise the text, language and segments it yields. -/
structure WhisperOut where
  raises : Bool
  text : Str
  language : Str
  segments : List Seg
deriving DecidableEq

/-- self.model is available after the lazy-load dance. -/
def model_available (st : WhisperState) : Bool := st.model_loaded || st.reload_ok

/-- Result dict of transcribe_audio; the optional confidence estimate is a
float statistic over no_speech_prob values and is elided. -/
structure TranscribeRes where
  success : Bool
  transcript : Option Str
  language : Option Str
  error : Option Str
deriving DecidableEq

/-- 200 MB limit of transcribe_audio in bytes: file_size_mb > 200 with
file_size_mb = size / (1024*1024). -/
def mb200 : Nat := 200 * 1024 * 1024

/-- TranscriptionService.transcribe_audio (transcription.py lines 40-129)
over an abstract file system fs mapping a path to its byte size when the
file exists.  The second component records whether model.transcribe was
invoked.  The float part of the too-large message is elided. -/
def transcribe_audio (fs : Str → Option Nat) (st : WhisperState) (out : WhisperOut) (audio_path : Str) :
    TranscribeRes × Bool :=
  match fs audio_path with
  | none =>
    ({ success := false, transcript := none, language := none,
       error := some (("Audio file not found: ").data ++ audio_path) }, false)
  | some size =>
    if mb200 < size then
      ({ success := false, transcript := none, language := none,
         error := some ("Audio file too large").data }, false)
    else if size = 0 then
      ({ success := false, transcript := none, language := none,
         error := some ("Audio file is empty").data }, false)
    else if model_available st = false then
      ({ success := false, transcript := none, language := none,
         error := some (("Could not load Whisper model: ").data ++ st.model_name) }, false)
    else if out.raises then
      ({ success := false, transcript := none, language := none,
         error := some ("Transcription failed: model error").data }, true)
    else
      let text := trimStr out.text
      if text.isEmpty then
        ({ success := false, transcript := none, language := some out.language,
           error := some ("No speech detected in audio file").data }, true)
      else
        ({ success := true, transcript := some text, language := some out.language, error := none }, true)

/-- Result dict of transcribe_with_timestamps. -/
structure TranscribeTSRes where
  success : Bool
  transcript : Option Str
  language : Option Str
  segments : Option (List Seg)
  error : Option Str
deriving DecidableEq

/-- TranscriptionService.transcribe_with_timestamps (transcription.py lines
216-268), the function the pipeline calls at coordinator.py line 286.  It
takes no file-system argument because the source performs no existence or
size check whatsoever: after the model-availability dance it goes straight
to model.transcribe.  The second component again records whether the model
was invoked. -/
def transcribe_with_timestamps (st : WhisperState) (out : WhisperOut) (_audio_path : Str) :
    TranscribeTSRes × Bool :=
  if model_available st = false then
    ({ success := false, transcript := none, language := none, segments := none,
       error := some (("Could not load Whisper model: ").data ++ st.model_name) }, false)
  else if out.raises then
    ({ success := false, transcript := none, language := none, segments := none,
       error := some ("Timestamped transcription failed: model error").data }, true)
  else
    ({ success := true, transcript := some (trimStr out.text), language := some out.language,
       segments := some (out.segments.map fun s => { s with text := trimStr s.text }),
       error := none }, true)

/-- Window of the specification heuristic: start time plus accumulated text. -/
structure Window where
  start : Int
  text : Str
deriving DecidableEq

/-- Folding state while assembling windows. -/
structure WindowSt where
  done : List Window
  wstart : Option Int
  acc : Str
deriving DecidableEq

/-- One folding step of the window builder: open a window at the first
segment, accumulate the stripped text joined by single spaces, and flush
once the elapsed time reaches 20 seconds or the accumulated text reaches
220 characters. -/
def window_step (st : WindowSt) (seg : Seg) : WindowSt :=
  let ws := (st.wstart).getD seg.start
  let acc := if st.acc.isEmpty then trimStr seg.text else st.acc ++ [' '] ++ trimStr seg.text
  if 20 ≤ seg.stop - ws ∨ 220 ≤ acc.length then
    { done := st.done ++ [{ start := ws, text := acc }], wstart := none, acc := [] }
  else
    { done := st.done, wstart := some ws, acc := acc }

/-- Written to the words of the specification (section 4.2, Jump-Point
Heuristic, first bullet): build approximately 20-second sliding windows
over the transcript segments, flushing a window when the elapsed time is
at least 20 seconds or the accumulated text is at least 220 characters;
a final partial window is kept. -/
def build_windows (segs : List Seg) : List Window :=
  let st := segs.foldl window_step { done := [], wstart := none, acc := [] }
  match st.wstart with
  | some x => if st.acc.isEmpty then st.done else st.done ++ [{ start := x, text := st.acc }]
  | none => st.done

/-- Written to the words of the specification (section 4.2, Jump-Point
Heuristic): windows are scored like segments, the top 20 by score are kept,
sorted by start time, downsampled evenly to at most 8, and rendered as
seconds/title pairs.  This is the claimed reading of the coordinator
heuristic, used for comparison with heuristicJumpPoints. -/
def spec_windowed_jump_points (segs : List Seg) : List JumpPoint :=
  let candidates := (build_windows segs).map fun w => (score200 w.text, clampSec w.start, w.text)
  let sorted := stableSortBy (fun a b => b.1 < a.1) candidates
  let top1 := sorted.take 20
  let top2 := stableSortBy (fun a b => a.2.1 < b.2.1) top1
  let top3 := if 8 < top2.length then (takeEvery (max 1 (top2.length / 8)) top2).take 8 else top2
  top3.map fun c => { seconds := c.2.1, title := mk_title c.2.2 }

/-- Per-segment reading of the heuristic, written as independent stages for
comparison with heuristicJumpPoints: every segment is scored on its own
stripped text, empty texts are dropped, the top 20 by score are kept,
sorted by start time, and if more than 8 remain they are downsampled
evenly with step = length / 8. -/
def spec_per_segment_jump_points (segs : List Seg) : List JumpPoint :=
  let scored := segs.map fun seg => (score200 (trimStr seg.text), clampSec seg.start, trimStr seg.text)
  let candidates := scored.filter fun c => !c.2.2.isEmpty
  let byScore := stableSortBy (fun a b => b.1 < a.1) candidates
  let top := stableSortBy (fun a b => a.2.1 < b.2.1) (byScore.take 20)
  let sampled := if 8 < top.length then (takeEvery (top.length / 8) top).take 8 else top
  sampled.map fun c => { seconds := c.2.1, title := mk_title c.2.2 }

/-! ## Helper lemmas -/

theorem find?_map_of_pred {α : Type} (p : α → Bool) (f : α → α) (h : ∀ x, p (f x) = p x) :
    ∀ l : List α, (l.map f).find? p = (l.find? p).map f := by
  intro l
  induction l with
  | nil => rfl
  | cons a l ih =>
    simp only [List.map_cons, List.find?_cons, h a]
    cases hp : p a
    · simpa [hp] using ih
    · simp [hp]

/-! ## C5: Delete(videoPath) -/

/-- Concrete completed summary row used to exercise delete_video_summary. -/
def c5row : VideoSummary :=
  { id := 1, video_path := ("/lib/a.mp4").data, status := .completed, summary := some ("s").data,
    transcript := none, model_used := none, audio_duration_seconds := none,
    processing_time_seconds := none, error_message := none, generated_at := 3 }

/-- Concrete version row for the same path. -/
def c5ver : VideoSummaryVersion :=
  { video_path := ("/lib/a.mp4").data, version := 1, summary := some ("s").data,
    transcript := none, model_used := none, processing_time_seconds := none, generated_at := 3 }

/-- Store holding the completed summary and its version row. -/
def c5db : DB := { summaries := [c5row], versions := [c5ver], next_id := 2 }

/-- C5 counterexample: deleting the summary for /lib/a.mp4 succeeds and
removes the Summary row, yet the SummaryVersion row for that path is left
behind, contradicting the claim that Delete removes both. -/
theorem delete_leaves_version_rows_cex :
    (delete_video_summary c5db ("/lib/a.mp4").data).1.success = true ∧
    (delete_video_summary c5db ("/lib/a.mp4").data).2.summaries = [] ∧
    (delete_video_summary c5db ("/lib/a.mp4").data).2.versions = [c5ver] ∧
    c5ver.video_path = ("/lib/a.mp4").data := by
  decide

/-- C5 (amended): Delete(videoPath) removes the Summary row matched by
exact path and reports success, but it never touches the SummaryVersion
table, whose rows for that videoPath all remain. -/
theorem delete_video_summary_effect (db : DB) (path : Str) :
    (delete_video_summary db path).2.versions = db.versions ∧
    (∀ row, find_summary db path = some row →
      (delete_video_summary db path).1.success = true ∧
      (delete_video_summary db path).2.summaries = db.summaries.filter (fun r => r.id != row.id)) ∧
    (find_summary db path = none →
      (delete_video_summary db path).1.success = false ∧ (delete_video_summary db path).2 = db) := by
  unfold delete_video_summary
  cases h : find_summary db path with
  | none => simp
  | some row0 =>
    refine ⟨rfl, ?_, by simp⟩
    intro row hrow
    cases hrow
    exact ⟨rfl, rfl⟩

/-- C5 witness: the amended theorem applied to the concrete store. -/
theorem delete_video_summary_effect_witness :
    (delete_video_summary c5db ("/lib/a.mp4").data).1.success = true ∧
    (delete_video_summary c5db ("/lib/a.mp4").data).2.versions = c5db.versions :=
  ⟨((delete_video_summary_effect c5db ("/lib/a.mp4").data).2.1 c5row (by decide)).1,
   (delete_video_summary_effect c5db ("/lib/a.mp4").data).1⟩

/-! ## C6: version rows are append-only -/

/-- Store with a completed summary that has no version rows, the state in
which the read-path backfill of get_video_summary fires. -/
def c6db : DB :=
  { summaries := [{ id := 1, video_path := ("/lib/a.mp4").data, status := .completed,
                    summary := some ("s").data, transcript := none, model_used := none,
                    audio_duration_seconds := none, processing_time_seconds := none,
                    error_message := none, generated_at := 3 }],
    versions := [], next_id := 2 }

/-- C6 counterexample: the read operation get_video_summary changes the
SummaryVersion table (it backfills a version-1 row), contradicting the
claim that version rows are created only on successful completion and that
reads leave the table unchanged. -/
theorem get_creates_version_row_cex :
    (get_video_summary c6db ("/lib/a.mp4").data 9).2.versions ≠ c6db.versions ∧
    ((get_video_summary c6db ("/lib/a.mp4").data 9).2.versions).length = 1 ∧
    c6db.versions = [] := by
  decide

/-- The handler only ever appends to the version table. -/
theorem pvs_versions_prefix (o : Oracle) (db : DB) (sid now pt : Nat) :
    db.versions <+: (process_video_summary o db sid now pt).2.versions := by
  unfold process_video_summary fail_with update_summary_status
  dsimp only
  split
  · split
    · exact List.prefix_refl _
    · exact List.prefix_refl _
  · split
    · exact List.prefix_refl _
    · split
      · exact List.prefix_refl _
      · split
        · exact List.prefix_refl _
        · exact List.prefix_append _ _

/-- C6 (amended): no engine operation ever mutates or deletes an existing
SummaryVersion row: across Start, the pipeline handler, the worker wrapper,
GetLatest and Delete, the prior version table is always a prefix of the new
one (Start and Delete leave it unchanged; the handler appends on success;
GetLatest may append a backfilled version-1 row, which is exactly the
creation outside successful completion that the original claim denies). -/
theorem version_rows_append_only :
    (∀ s path force fe now, (start_video_summary s path force fe now).2.db.versions = s.db.versions) ∧
    (∀ o db sid now pt, db.versions <+: (process_video_summary o db sid now pt).2.versions) ∧
    (∀ o s tid now pt, s.db.versions <+: (process_task o s tid now pt).db.versions) ∧
    (∀ db q now, db.versions <+: (get_video_summary db q now).2.versions) ∧
    (∀ db path, (delete_video_summary db path).2.versions = db.versions) := by
  refine ⟨?_, ?_, ?_, ?_, ?_⟩
  · intro s path force fe now
    unfold start_video_summary add_task reset_row
    dsimp only
    split
    · rfl
    · cases find_summary s.db path with
      | none => rfl
      | some ex =>
        dsimp only
        split
        · rfl
        · split
          · rfl
          · rfl
  · exact pvs_versions_prefix
  · intro o s tid now pt
    unfold process_task
    cases s.tasks.find? (fun t => t.task_id == tid) with
    | none => exact List.prefix_refl _
    | some t =>
      simp only
      split
      · exact pvs_versions_prefix o s.db t.summary_id now pt
      · exact List.prefix_refl _
  · intro db q now
    unfold get_video_summary
    cases first_by_generated_desc (db.summaries.filter (fun r => tolerant_match q r.video_path)) with
    | none => exact List.prefix_refl _
    | some vs =>
      simp only
      split
      · split
        · exact List.prefix_refl _
        · exact List.prefix_append _ _
      · exact List.prefix_refl _
  · intro db path
    unfold delete_video_summary
    cases find_summary db path <;> rfl

/-! ## C4: duplicate admission is rejected -/

/-- Concrete completed row for the C4 witness. -/
def c4row : VideoSummary :=
  { id := 1, video_path := ("/lib/a.mp4").data, status := .completed, summary := some ("sum").data,
    transcript := none, model_used := none, audio_duration_seconds := none,
    processing_time_seconds := none, error_message := none, generated_at := 3 }

/-- Store for the C4 witness. -/
def c4db : DB := { summaries := [c4row], versions := [], next_id := 2 }

/-- C4: when a completed Summary exists for the path and force is false,
Start fails with an error identifying the duplicate (the message contains
already exists), returns the snapshot of the existing row, hands back no
task id, and leaves the whole system state, hence the Summary row, the
task queue and the version table, unchanged. -/
theorem start_rejects_completed_summary (s : Sys) (path : Str) (now : Nat) (ex : VideoSummary)
    (hfind : find_summary s.db path = some ex) (hst : ex.status = .completed) :
    (start_video_summary s path false true now).1.success = false ∧
    hasSubstr ("already exists").data (((start_video_summary s path false true now).1.error).getD []) = true ∧
    (start_video_summary s path false true now).1.existing_status = some .completed ∧
    (start_video_summary s path false true now).1.existing_summary = some ex.summary ∧
    (start_video_summary s path false true now).1.existing_generated_at = some ex.generated_at ∧
    (start_video_summary s path false true now).1.task_id = none ∧
    (start_video_summary s path false true now).2 = s := by
  have e : start_video_summary s path false true now =
      ({ success := false, error := some ("Summary already exists for this video").data,
         existing_status := some ex.status, existing_summary := some ex.summary,
         existing_generated_at := some ex.generated_at, task_id := none }, s) := by
    unfold start_video_summary
    simp [hfind, hst]
  rw [e, hst]
  refine ⟨rfl, ?_, rfl, rfl, rfl, rfl, rfl⟩
  show hasSubstr ("already exists").data (("Summary already exists for this video").data) = true
  decide

/-- C4 witness: the rejection theorem applied to the concrete store that
holds one completed summary for /lib/a.mp4. -/
theorem start_rejects_completed_summary_witness :
    (start_video_summary { db := c4db, tasks := [], next_task_id := 1 } ("/lib/a.mp4").data false true 7).1.success = false ∧
    (start_video_summary { db := c4db, tasks := [], next_task_id := 1 } ("/lib/a.mp4").data false true 7).2
      = { db := c4db, tasks := [], next_task_id := 1 } :=
  ⟨(start_rejects_completed_summary _ _ 7 c4row (by decide) (by decide)).1,
   (start_rejects_completed_summary _ _ 7 c4row (by decide) (by decide)).2.2.2.2.2.2⟩

/-! ## C9: transcription size preflight -/

/-- File system holding a single zero-byte audio file. -/
def c9fs : Str → Option Nat := fun p => if p == ("a.wav").data then some 0 else none

/-- Loaded Whisper model slot. -/
def c9st : WhisperState := { model_loaded := true, reload_ok := true, model_name := ("base").data }

/-- Model call outcome yielding a short text. -/
def c9out : WhisperOut := { raises := false, text := ("hi").data, language := ("en").data, segments := [] }

/-- C9 counterexample: on the zero-byte file, transcribe_audio rejects
without invoking the model, but transcribe_with_timestamps, the function
the pipeline actually calls (coordinator.py line 286), invokes the model
and even reports success, contradicting the claim that the transcription
used by the pipeline rejects empty files before the model call. -/
theorem pipeline_transcription_no_preflight_cex :
    c9fs ("a.wav").data = some 0 ∧
    (transcribe_audio c9fs c9st c9out ("a.wav").data).2 = false ∧
    (transcribe_with_timestamps c9st c9out ("a.wav").data).2 = true ∧
    (transcribe_with_timestamps c9st c9out ("a.wav").data).1.success = true := by
  decide

/-- C9 (amended): the over-200-MiB and zero-byte preflight lives only in
transcribe_audio, which rejects such files with an error and never invokes
the speech model; transcribe_with_timestamps, the entry point the pipeline
uses, performs no size check and always invokes the model once it is
available. -/
theorem transcription_preflight_split (fs : Str → Option Nat) (st : WhisperState) (out : WhisperOut) (p : Str) :
    (∀ size, fs p = some size → mb200 < size →
      (transcribe_audio fs st out p).2 = false ∧ (transcribe_audio fs st out p).1.success = false) ∧
    (fs p = some 0 →
      (transcribe_audio fs st out p).2 = false ∧ (transcribe_audio fs st out p).1.success = false) ∧
    (model_available st = true → (transcribe_with_timestamps st out p).2 = true) := by
  refine ⟨?_, ?_, ?_⟩
  · intro size hfs hbig
    unfold transcribe_audio
    rw [hfs]
    simp [hbig]
  · intro hfs
    unfold transcribe_audio
    rw [hfs]
    have : ¬ mb200 < 0 := by decide
    simp [this]
  · intro hav
    unfold transcribe_with_timestamps
    simp [hav]
    split <;> simp

/-- C9 witness: the amended theorem applied to a one-file store with a
300 MiB file and to the zero-byte store, plus the always-invoked half. -/
theorem transcription_preflight_split_witness :
    ((transcribe_audio (fun q => if q == ("b.wav").data then some (300 * 1024 * 1024) else none) c9st c9out ("b.wav").data).2 = false ∧
     (transcribe_audio (fun q => if q == ("b.wav").data then some (300 * 1024 * 1024) else none) c9st c9out ("b.wav").data).1.success = false) ∧
    ((transcribe_audio c9fs c9st c9out ("a.wav").data).2 = false ∧
     (transcribe_audio c9fs c9st c9out ("a.wav").data).1.success = false) ∧
    (transcribe_with_timestamps c9st c9out ("a.wav").data).2 = true :=
  ⟨(transcription_preflight_split (fun q => if q == ("b.wav").data then some (300 * 1024 * 1024) else none)
      c9st c9out ("b.wav").data).1 (300 * 1024 * 1024) (by decide) (by decide),
   (transcription_preflight_split c9fs c9st c9out ("a.wav").data).2.1 (by decide),
   (transcription_preflight_split c9fs c9st c9out ("a.wav").data).2.2 (by decide)⟩

/-! ## C8: the jump-point heuristic -/

/-- Three short consecutive segments spanning 15 seconds: the window
reading would merge them into a single window, the code scores each one. -/
def c8segs : List Seg :=
  [{ start := 0, stop := 5, text := ("hello world").data },
   { start := 5, stop := 10, text := ("more words").data },
   { start := 10, stop := 15, text := ("final words").data }]

/-- C8 counterexample: on three sub-20-second segments the coordinator
heuristic emits one jump point per segment (three in total), while the
claimed window construction flushes them as one window and emits a single
jump point, so the heuristic does not build the claimed windows. -/
theorem heuristic_not_windowed_cex :
    heuristicJumpPoints c8segs ≠ spec_windowed_jump_points c8segs ∧
    (heuristicJumpPoints c8segs).length = 3 ∧
    (spec_windowed_jump_points c8segs).length = 1 := by
  decide

/-- Per-segment candidate construction agrees with map-then-filter. -/
theorem heuristic_candidates_eq (segs : List Seg) :
    heuristic_candidates segs =
      (segs.map fun seg => (score200 (trimStr seg.text), clampSec seg.start, trimStr seg.text)).filter
        (fun c => !c.2.2.isEmpty) := by
  induction segs with
  | nil => rfl
  | cons a l ih =>
    simp only [heuristic_candidates, List.filterMap_cons, List.map_cons, List.filter_cons] at *
    cases h : (trimStr a.text).isEmpty
    all_goals simp only [List.isEmpty_iff] at ih ⊢
    all_goals simp [h, List.isEmpty_iff, ih]

/-- C8 (amended): the heuristic scores each transcript segment individually
on its stripped text (+2 scaled on a keyword hit plus the capped length
term), keeps the top 20 by score, sorts by start time, downsamples evenly
with step = length / 8 when more than 8 remain, and always returns at most
8 jump points; it performs no window assembly. -/
theorem heuristic_scores_segments :
    (∀ segs, heuristicJumpPoints segs = spec_per_segment_jump_points segs) ∧
    (∀ segs, (heuristicJumpPoints segs).length ≤ 8) := by
  constructor
  · intro segs
    unfold heuristicJumpPoints spec_per_segment_jump_points
    rw [heuristic_candidates_eq]
    dsimp only
    split
    · next h =>
      rw [Nat.max_eq_right ((Nat.one_le_div_iff (by norm_num)).mpr (by omega))]
    · rfl
  · intro segs
    unfold heuristicJumpPoints
    dsimp only
    rw [List.length_map]
    split
    · next h =>
      rw [List.length_take]
      omega
    · next h => omega

/-! ## C2: the no-audio path -/

/-- Looking up the touched row after _update_summary_status. -/
theorem update_find (db : DB) (sid : Nat) (st : SStatus) (em : Option Str) (r : VideoSummary)
    (hfind : db.summaries.find? (fun x => x.id == sid) = some r) :
    (update_summary_status db sid st em).summaries.find? (fun x => x.id == sid)
      = some { r with status := st,
                      error_message :=
                        match em with
                        | some m => if m.isEmpty then r.error_message else some m
                        | none => r.error_message } := by
  have hid : r.id = sid := by
    have h := List.find?_some hfind
    simpa using h
  unfold update_summary_status
  dsimp only
  rw [find?_map_of_pred _ _ ?hp, hfind]
  case hp =>
    intro x
    by_cases hx : x.id = sid <;> simp [hx]
  simp [hid]

/-- Pending summary row awaiting the no-audio pipeline run. -/
def c2row : VideoSummary :=
  { id := 1, video_path := ("/lib/mute.mp4").data, status := .pending, summary := none,
    transcript := none, model_used := none, audio_duration_seconds := none,
    processing_time_seconds := none, error_message := none, generated_at := 0 }

/-- System with that row and one pending video_summary task for it. -/
def c2sys : Sys :=
  { db := { summaries := [c2row], versions := [], next_id := 2 },
    tasks := [{ task_id := 1, video_path := ("/lib/mute.mp4").data, summary_id := 1,
                status := .pending, result := none, error := none }],
    next_task_id := 2 }

/-- Extractor oracle reporting the no-audio failure of audio_extraction.py
line 91, with the remaining workers immaterial. -/
def c2o : Oracle :=
  { extract := { success := false, audio_path := none, duration_seconds := none,
                 error := some ("Audio extraction produced empty file - video may have no audio track").data },
    transcribe := { success := true, transcript := [], language := [], segments := [], error := none },
    summarize := { success := true, summary := [], model_used := none, error := none },
    ai_jump_points := [], whisper_model_name := ("base").data }

/-- C2 counterexample: on the no-audio run the worker marks the task
completed, because the handler returns a failure dict instead of raising,
so the task never ends failed as the claim requires. -/
theorem no_audio_task_not_failed_cex :
    ((process_task c2o c2sys 1 5 7).tasks.find? (fun u => u.task_id == 1)).map Task.status
      = some .completed ∧
    ((process_task c2o c2sys 1 5 7).tasks.find? (fun u => u.task_id == 1)).map Task.status
      ≠ some .failed := by
  decide

/-- C2 (amended): when the extractor classifies the error as no audio
track, the handler sets the Summary to no_audio with the message Video
file has no audio track, creates no SummaryVersion row, and the task ends
completed, its result carrying success = false with the identifying error
Video has no audio track and the no_audio status marker. -/
theorem no_audio_summary_and_task (s : Sys) (o : Oracle) (tid now pt : Nat) (t : Task) (r : VideoSummary)
    (ht : s.tasks.find? (fun u => u.task_id == tid) = some t)
    (hp : t.status = .pending)
    (hr : s.db.summaries.find? (fun x => x.id == t.summary_id) = some r)
    (hex : o.extract.success = false)
    (hna : hasSubstr ("no audio").data (lowerStr ((o.extract.error).getD [])) = true) :
    ((process_task o s tid now pt).db.summaries.find? (fun x => x.id == t.summary_id)).map
        (fun x => (x.status, x.error_message))
      = some (.noAudio, some ("Video file has no audio track").data) ∧
    (process_task o s tid now pt).db.versions = s.db.versions ∧
    ((process_task o s tid now pt).tasks.find? (fun u => u.task_id == tid)).map
        (fun u => (u.status, u.result))
      = some (.completed,
              some { success := false, error := some ("Video has no audio track").data,
                     status := some ("no_audio").data, summary := none }) := by
  have hpvs : process_video_summary o s.db t.summary_id now pt
      = ({ success := false, error := some ("Video has no audio track").data,
           status := some ("no_audio").data, summary := none },
         update_summary_status (update_summary_status s.db t.summary_id .processing none)
           t.summary_id .noAudio (some ("Video file has no audio track").data)) := by
    unfold process_video_summary
    simp [hex, hna]
  have hE : process_task o s tid now pt
      = { s with
            db := (process_video_summary o s.db t.summary_id now pt).2,
            tasks := s.tasks.map fun u =>
              if u.task_id = tid then
                { u with status := .completed,
                         result := some (process_video_summary o s.db t.summary_id now pt).1, error := none }
              else u } := by
    unfold process_task
    rw [ht]
    simp [hp]
  have htid : t.task_id = tid := by
    have h := List.find?_some ht
    simpa using h
  rw [hE]
  refine ⟨?_, ?_, ?_⟩
  · rw [hpvs]
    rw [update_find _ _ _ _ _ (update_find _ _ _ _ _ hr)]
    simp
  · rw [hpvs]
    rfl
  · rw [find?_map_of_pred _ _ ?hq, ht]
    case hq =>
      intro x
      by_cases hx : x.task_id = tid <;> simp [hx]
    rw [hpvs]
    simp [htid]

/-- C2 witness: the amended theorem evaluated on the concrete no-audio
system. -/
theorem no_audio_summary_and_task_witness :
    ((process_task c2o c2sys 1 5 7).db.summaries.find? (fun x => x.id == 1)).map
        (fun x => (x.status, x.error_message))
      = some (.noAudio, some ("Video file has no audio track").data) ∧
    (process_task c2o c2sys 1 5 7).db.versions = c2sys.db.versions :=
  ⟨(no_audio_summary_and_task c2sys c2o 1 5 7
      { task_id := 1, video_path := ("/lib/mute.mp4").data, summary_id := 1,
        status := .pending, result := none, error := none } c2row
      (by decide) rfl (by decide) rfl (by decide)).1,
   (no_audio_summary_and_task c2sys c2o 1 5 7
      { task_id := 1, video_path := ("/lib/mute.mp4").data, summary_id := 1,
        status := .pending, result := none, error := none } c2row
      (by decide) rfl (by decide) rfl (by decide)).2.1⟩

/-! ## C3: version density -/

/-- Version numbers stored for a path, in table order. -/
def ver_list (db : DB) (path : Str) : List Nat :=
  (db.versions.filter (fun v => v.video_path == path)).map (fun v => v.version)

/-- Folding max with an arbitrary seed. -/
theorem foldr_max_init (b : Nat) (l : List Nat) :
    l.foldr Nat.max b = Nat.max b (l.foldr Nat.max 0) := by
  induction l with
  | nil => simp
  | cons a l ih =>
    simp only [List.foldr_cons, ih, Nat.max_def]
    split_ifs <;> omega

/-- The maximum of the dense range 1..n is n. -/
theorem foldr_max_range (n : Nat) : (List.range' 1 n).foldr Nat.max 0 = n := by
  induction n with
  | zero => rfl
  | succ k ih =>
    rw [List.range'_concat, List.foldr_append, foldr_max_init]
    simp only [List.foldr_cons, List.foldr_nil, ih, Nat.max_def]
    split_ifs <;> omega

/-- Rewriting ver_list after an append of a row for the same path. -/
theorem ver_list_eq_of_versions (db2 db : DB) (v : VideoSummaryVersion) (p : Str)
    (hv : v.video_path = p) (he : db2.versions = db.versions ++ [v]) :
    ver_list db2 p = ver_list db p ++ [v.version] := by
  unfold ver_list
  rw [he, List.filter_append]
  simp [hv]

/-- Effect of a fully successful handler run: exactly one version row is
appended, keyed by the path of the summary row and numbered one above the
stored maximum, and the summary row survives with its path. -/
theorem pvs_success (o : Oracle) (db : DB) (sid now pt : Nat) (r : VideoSummary)
    (h1 : o.extract.success = true) (h2 : o.transcribe.success = true) (h3 : o.summarize.success = true)
    (hr : db.summaries.find? (fun x => x.id == sid) = some r) :
    ∃ v : VideoSummaryVersion,
      v.video_path = r.video_path ∧
      v.version = max_version db r.video_path + 1 ∧
      (process_video_summary o db sid now pt).2.versions = db.versions ++ [v] ∧
      ∃ r2, (process_video_summary o db sid now pt).2.summaries.find? (fun x => x.id == sid) = some r2 ∧
        r2.video_path = r.video_path := by
  have hid : r.id = sid := by
    have h := List.find?_some hr
    simpa using h
  have hup := update_find db sid .processing none r hr
  unfold process_video_summary
  simp only [h1, h2, h3]
  rw [hup]
  refine ⟨_, rfl, rfl, rfl, ?_⟩
  simp only [Bool.true_eq_false, if_false]
  rw [find?_map_of_pred _ _ ?hp, hup]
  case hp =>
    intro x
    by_cases hx : x.id = sid <;> simp [hx, hid]
  simp [hid]

/-- Repeated successful completions for the same summary id. -/
def iterate_completions (o : Oracle) (sid now pt : Nat) : Nat → DB → DB
  | 0, db => db
  | k + 1, db => iterate_completions o sid now pt k (process_video_summary o db sid now pt).2

/-- Density is preserved run by run, from any dense starting point. -/
theorem iterate_density_aux (o : Oracle) (sid now pt : Nat)
    (h1 : o.extract.success = true) (h2 : o.transcribe.success = true) (h3 : o.summarize.success = true) :
    ∀ k j db r, db.summaries.find? (fun x => x.id == sid) = some r →
      ver_list db r.video_path = List.range' 1 j →
      ver_list (iterate_completions o sid now pt k db) r.video_path = List.range' 1 (j + k) := by
  intro k
  induction k with
  | zero =>
    intro j db r _ hvl
    simpa using hvl
  | succ k ih =>
    intro j db r hr hvl
    obtain ⟨v, hvp, hvv, hvers, r2, hr2, hr2p⟩ := pvs_success o db sid now pt r h1 h2 h3 hr
    have hmax : max_version db r.video_path = j := by
      have : max_version db r.video_path = (ver_list db r.video_path).foldr Nat.max 0 := rfl
      rw [this, hvl, foldr_max_range]
    have hnew : ver_list (process_video_summary o db sid now pt).2 r.video_path
        = List.range' 1 (j + 1) := by
      rw [ver_list_eq_of_versions _ db v r.video_path hvp hvers, hvl, hvv, hmax]
      rw [List.range'_concat]
      simp [Nat.add_comm]
    show ver_list (iterate_completions o sid now pt k (process_video_summary o db sid now pt).2) r.video_path
        = List.range' 1 (j + (k + 1))
    have := ih (j + 1) (process_video_summary o db sid now pt).2 r2 hr2 (by rw [hr2p, hnew])
    rw [hr2p] at this
    rw [this]
    congr 1
    omega

/-- C3: every fully successful completion appends exactly one version row
with version = max(existing versions for the path) + 1 (1 when none
exist), and consequently after N successful completions from an empty
version history the stored versions for the path are exactly 1..N. -/
theorem version_density (o : Oracle) (sid now pt : Nat)
    (h1 : o.extract.success = true) (h2 : o.transcribe.success = true) (h3 : o.summarize.success = true) :
    (∀ db r, db.summaries.find? (fun x => x.id == sid) = some r →
      ver_list (process_video_summary o db sid now pt).2 r.video_path
        = ver_list db r.video_path ++ [max_version db r.video_path + 1]) ∧
    (∀ k db r, db.summaries.find? (fun x => x.id == sid) = some r →
      ver_list db r.video_path = [] →
      ver_list (iterate_completions o sid now pt k db) r.video_path = List.range' 1 k) := by
  constructor
  · intro db r hr
    obtain ⟨v, hvp, hvv, hvers, _, _, _⟩ := pvs_success o db sid now pt r h1 h2 h3 hr
    rw [ver_list_eq_of_versions _ db v r.video_path hvp hvers, hvv]
  · intro k db r hr hempty
    have := iterate_density_aux o sid now pt h1 h2 h3 k 0 db r hr (by simpa using hempty)
    simpa using this

/-- Pending row for the C3 witness. -/
def c3row : VideoSummary :=
  { id := 1, video_path := ("/lib/a.mp4").data, status := .pending, summary := none,
    transcript := none, model_used := none, audio_duration_seconds := none,
    processing_time_seconds := none, error_message := none, generated_at := 0 }

/-- Store for the C3 witness. -/
def c3db : DB := { summaries := [c3row], versions := [], next_id := 2 }

/-- Fully successful oracle for the C3 witness. -/
def c3o : Oracle :=
  { extract := { success := true, audio_path := some ("a.wav").data, duration_seconds := some 150,
                 error := none },
    transcribe := { success := true, transcript := ("hello world. welcome.").data,
                    language := ("en").data, segments := [], error := none },
    summarize := { success := true, summary := ("sum").data, model_used := some ("llama3:13b").data,
                   error := none },
    ai_jump_points := [], whisper_model_name := ("base").data }

/-- C3 witness: two successful completions on the fresh store produce the
version list 1, 2. -/
theorem version_density_witness :
    ver_list (iterate_completions c3o 1 5 7 2 c3db) c3row.video_path = List.range' 1 2 :=
  (version_density c3o 1 5 7 rfl rfl rfl).2 2 c3db c3row (by decide) rfl

/-! ## C7 and C10: tolerant lookup -/

/-- A literal suffix is also a case-insensitive LIKE suffix. -/
theorem like_suffix_of_suffix (p suf : Str) (h : suf <:+ p) : like_suffix p suf = true := by
  obtain ⟨t, ht⟩ := h
  unfold like_suffix lowerStr
  exact List.isSuffixOf_iff_suffix.mpr ⟨t.map Char.toLower, by rw [← ht, List.map_append]⟩

/-- Folding the component splitter over slash-free text appends it. -/
theorem foldl_component_no_slash (B : Str) (hB : '/' ∉ B) :
    ∀ acc : Str, B.foldl (fun acc c => if c = '/' then [] else acc ++ [c]) acc = acc ++ B := by
  induction B with
  | nil => intro acc; simp
  | cons c B ih =>
    intro acc
    have hc : ¬ c = '/' := fun h => hB (h ▸ List.mem_cons_self c B)
    have hB2 : '/' ∉ B := fun h => hB (List.mem_cons_of_mem c h)
    simp only [List.foldl_cons, if_neg hc, ih hB2]
    simp

/-- The final component of any path ending in slash plus a slash-free
basename is that basename. -/
theorem last_component_concat (xs B : Str) (hB : '/' ∉ B) :
    last_component (xs ++ '/' :: B) = B := by
  unfold last_component
  rw [show xs ++ '/' :: B = (xs ++ ['/']) ++ B by simp, List.foldl_append, List.foldl_append]
  simp only [List.foldl_cons, List.foldl_nil, if_pos rfl]
  simpa using foldl_component_no_slash B hB []

/-- Filtering a list in which exactly one element passes. -/
theorem filter_eq_single {α : Type} [DecidableEq α] (l : List α) (p : α → Bool) (S : α)
    (hmem : S ∈ l) (hcount : l.count S = 1) (hpS : p S = true)
    (hothers : ∀ r ∈ l, r ≠ S → p r = false) :
    l.filter p = [S] := by
  induction l with
  | nil => cases hmem
  | cons a l ih =>
    by_cases ha : a = S
    · subst ha
      have hnot : a ∉ l := by
        rw [List.count_cons_self] at hcount
        exact List.count_eq_zero.mp (by omega)
      rw [List.filter_cons_of_pos hpS]
      have : l.filter p = [] := List.filter_eq_nil_iff.mpr fun x hx => by
        have hxa : x ≠ a := fun h => hnot (h ▸ hx)
        simp [hothers x (List.mem_cons_of_mem a hx) hxa]
      rw [this]
    · have hpa : p a = false := hothers a (List.mem_cons_self a l) ha
      rw [List.filter_cons_of_neg (by simp [hpa])]
      refine ih ?_ ?_ ?_
      · rcases List.mem_cons.mp hmem with h | h
        · exact absurd h.symm ha
        · exact h
      · rw [List.count_cons] at hcount
        have : (a == S) = false := by simp [ha]
        rw [this] at hcount
        simpa using hcount
      · intro r hr hrS
        exact hothers r (List.mem_cons_of_mem a hr) hrS

/-- The most recent of a single row is that row. -/
theorem first_by_single (S : VideoSummary) : first_by_generated_desc [S] = some S := rfl

/-- C7 (amended): when exactly one Summary is stored whose path ends in
slash-B, any query path ending in slash-B (exact or with a different
prefix) returns that same Summary, PROVIDED the call does not trip the
version-backfill conflict: if the matched Summary is completed with a
non-empty summary, no version rows match the queried path, and a version-1
row already exists under the stored path, the backfill insert violates the
unique constraint and the lookup returns none instead (see the C7
counterexample). -/
theorem tolerant_lookup_returns_summary (db : DB) (q B : Str) (now : Nat) (S : VideoSummary)
    (hmem : S ∈ db.summaries)
    (hcount : db.summaries.count S = 1)
    (hSsuf : ('/' :: B) <:+ S.video_path)
    (hqsuf : ('/' :: B) <:+ q)
    (hB : '/' ∉ B)
    (hothers : ∀ r ∈ db.summaries, r ≠ S →
      like_suffix r.video_path ('/' :: B) = false ∧ like_suffix r.video_path ('\\' :: B) = false)
    (hnoconf : ¬ (truthy S.summary = true ∧ S.status = .completed ∧ versions_for db q = [] ∧
      db.versions.any (fun v => v.video_path == S.video_path && v.version == 1) = true)) :
    ((get_video_summary db q now).1).map (fun p => (p.video_path, p.status, p.summary))
      = some (S.video_path, S.status, S.summary) := by
  obtain ⟨xs, hxs⟩ := hqsuf
  have hlast : last_component q = B := by
    rw [← hxs]
    exact last_component_concat xs B hB
  have hfilter : db.summaries.filter (fun r => tolerant_match q r.video_path) = [S] := by
    apply filter_eq_single _ _ _ hmem hcount
    · unfold tolerant_match
      rw [hlast]
      simp [like_suffix_of_suffix _ _ hSsuf]
    · intro r hr hrS
      obtain ⟨hf1, hf2⟩ := hothers r hr hrS
      unfold tolerant_match
      rw [hlast]
      have hexact : (r.video_path == q) = false := by
        cases hbe : r.video_path == q
        · rfl
        · have heq : r.video_path = q := by simpa using hbe
          have : like_suffix r.video_path ('/' :: B) = true :=
            like_suffix_of_suffix _ _ (by rw [heq, ← hxs]; exact ⟨xs, rfl⟩)
          rw [hf1] at this
          cases this
      simp [hexact, hf1, hf2]
  unfold get_video_summary
  rw [hfilter, first_by_single]
  dsimp only
  by_cases htrig : truthy S.summary = true ∧ S.status = .completed ∧ versions_for db q = []
  · rw [if_pos htrig]
    have hconf : db.versions.any (fun v => v.video_path == S.video_path && v.version == 1) = false := by
      cases hc : db.versions.any (fun v => v.video_path == S.video_path && v.version == 1)
      · rfl
      · exact absurd ⟨htrig.1, htrig.2.1, htrig.2.2, hc⟩ hnoconf
    rw [if_neg (by simp [hconf])]
    simp [mk_payload]
  · rw [if_neg htrig]
    simp [mk_payload]

/-- Row for the C7 witness: a failed summary stored under /lib/a.mp4. -/
def c7S : VideoSummary :=
  { id := 1, video_path := ("/lib/a.mp4").data, status := .failed, summary := none,
    transcript := none, model_used := none, audio_duration_seconds := none,
    processing_time_seconds := none, error_message := some ("boom").data, generated_at := 3 }

/-- Store for the C7 witness. -/
def c7db : DB := { summaries := [c7S], versions := [], next_id := 2 }

/-- C7 witness: querying the relocated path /mnt/a.mp4 returns the summary
stored under /lib/a.mp4. -/
theorem tolerant_lookup_returns_summary_witness :
    ((get_video_summary c7db ("/mnt/a.mp4").data 9).1).map (fun p => (p.video_path, p.status, p.summary))
      = some (c7S.video_path, c7S.status, c7S.summary) :=
  tolerant_lookup_returns_summary c7db ("/mnt/a.mp4").data ("a.mp4").data 9 c7S
    (by decide) (by decide) (by decide) (by decide) (by decide) (by decide) (by decide)

/-- Completed row for the C7 counterexample, stored under /lib/b.mp4 with
its version-1 row present. -/
def c7crow : VideoSummary :=
  { id := 1, video_path := ("/lib/b.mp4").data, status := .completed, summary := some ("s").data,
    transcript := none, model_used := none, audio_duration_seconds := none,
    processing_time_seconds := none, error_message := none, generated_at := 3 }

/-- Store for the C7 counterexample. -/
def c7cdb : DB :=
  { summaries := [c7crow],
    versions := [{ video_path := ("/lib/b.mp4").data, version := 1, summary := some ("s").data,
                   transcript := none, model_used := none, processing_time_seconds := none,
                   generated_at := 3 }],
    next_id := 2 }

/-- C7 counterexample: the stored path and the query path both end in
/b.mp4, yet the lookup returns none rather than the stored Summary: the
version-backfill insert collides with the existing version-1 row and the
exception path swallows the result. -/
theorem tolerant_lookup_cex :
    ('/' :: ("b.mp4").data) <:+ c7crow.video_path ∧
    ('/' :: ("b.mp4").data) <:+ ("/mnt/b.mp4").data ∧
    (get_video_summary c7cdb ("/mnt/b.mp4").data 9).1 = none := by
  decide

/-- C10 (amended): when the tolerant match resolves the query to a Summary
stored under a different exact path and no version rows carry the queried
path, get_video_summary returns that Summary with an EMPTY versions list,
except in one case: if the Summary is completed with a non-empty summary
and a version-1 row already exists under its stored path, the backfill
insert violates the unique constraint and the call returns none. -/
theorem stale_path_version_lookup (db : DB) (q : Str) (now : Nat) (S : VideoSummary)
    (hfilter : db.summaries.filter (fun r => tolerant_match q r.video_path) = [S])
    (hdiff : S.video_path ≠ q)
    (hnover : db.versions.filter (fun v => v.video_path == q) = []) :
    ((truthy S.summary = true ∧ S.status = .completed ∧
        db.versions.any (fun v => v.video_path == S.video_path && v.version == 1) = true) →
      (get_video_summary db q now).1 = none) ∧
    (¬ (truthy S.summary = true ∧ S.status = .completed ∧
        db.versions.any (fun v => v.video_path == S.video_path && v.version == 1) = true) →
      ((get_video_summary db q now).1).map (fun p => (p.video_path, p.versions))
        = some (S.video_path, [])) := by
  have hvq : versions_for db q = [] := by
    unfold versions_for
    rw [hnover]
    rfl
  constructor
  · intro ⟨ht, hc, hconf⟩
    unfold get_video_summary
    rw [hfilter, first_by_single]
    dsimp only
    rw [if_pos ⟨ht, hc, hvq⟩, if_pos hconf]
  · intro hn
    unfold get_video_summary
    rw [hfilter, first_by_single]
    dsimp only
    by_cases htc : truthy S.summary = true ∧ S.status = .completed
    · have hconf : db.versions.any (fun v => v.video_path == S.video_path && v.version == 1) = false := by
        cases hc : db.versions.any (fun v => v.video_path == S.video_path && v.version == 1)
        · rfl
        · exact absurd ⟨htc.1, htc.2, hc⟩ hn
      rw [if_pos ⟨htc.1, htc.2, hvq⟩, if_neg (by simp [hconf])]
      have hnotq : ((⟨S.video_path, 1, S.summary, S.transcript, S.model_used, none, now⟩ :
          VideoSummaryVersion).video_path == q) = false := by
        simpa using hdiff
      simp only [mk_payload, versions_for, List.filter_append, hnover, List.filter_cons,
        hnotq, Option.map_some]
      simp [stableSortBy]
    · rw [if_neg (by intro h; exact htc ⟨h.1, h.2.1⟩)]
      simp [mk_payload, hvq]

/-- Completed row stored under /lib/c.mp4 with version row for the C10
counterexample. -/
def c10S : VideoSummary :=
  { id := 1, video_path := ("/lib/c.mp4").data, status := .completed, summary := some ("s").data,
    transcript := none, model_used := none, audio_duration_seconds := none,
    processing_time_seconds := none, error_message := none, generated_at := 3 }

/-- Store for the C10 counterexample. -/
def c10db : DB :=
  { summaries := [c10S],
    versions := [{ video_path := ("/lib/c.mp4").data, version := 1, summary := some ("s").data,
                   transcript := none, model_used := none, processing_time_seconds := none,
                   generated_at := 3 }],
    next_id := 2 }

/-- C10 counterexample: the tolerant match resolves /mnt/c.mp4 to the
Summary stored under /lib/c.mp4, but instead of returning that Summary
with an empty versions list the call returns none: the backfill insert of
(stored path, 1) hits the unique constraint. -/
theorem stale_path_version_lookup_cex :
    c10db.summaries.filter (fun r => tolerant_match ("/mnt/c.mp4").data r.video_path) = [c10S] ∧
    c10S.video_path ≠ ("/mnt/c.mp4").data ∧
    (get_video_summary c10db ("/mnt/c.mp4").data 9).1 = none := by
  decide

/-- Completed row stored under /lib/d.mp4 without version rows, for the
C10 witness. -/
def c10wS : VideoSummary :=
  { id := 1, video_path := ("/lib/d.mp4").data, status := .completed, summary := some ("s").data,
    transcript := none, model_used := none, audio_duration_seconds := none,
    processing_time_seconds := none, error_message := none, generated_at := 3 }

/-- Store for the C10 witness. -/
def c10wdb : DB := { summaries := [c10wS], versions := [], next_id := 2 }

/-- C10 witness: in the non-conflicting case the relocated query returns
the stored Summary with an empty versions list. -/
theorem stale_path_version_lookup_witness :
    ((get_video_summary c10wdb ("/mnt/d.mp4").data 9).1).map (fun p => (p.video_path, p.versions))
      = some (c10wS.video_path, []) :=
  (stale_path_version_lookup c10wdb ("/mnt/d.mp4").data 9 c10wS
    (by decide) (by decide) (by decide)).2 (by decide)

/-! ## C1: at most one active task per video -/

/-- Distinct primary keys on the video_summaries table. -/
def distinct_ids (l : List VideoSummary) : Prop := l.Pairwise (fun a b => a.id ≠ b.id)

/-- The unique constraint on video_summaries.video_path. -/
def distinct_paths (l : List VideoSummary) : Prop := l.Pairwise (fun a b => a.video_path ≠ b.video_path)

/-- An active task is backed by its summary row, which is pending or
processing; this link is what makes the admission check exclude a second
task. -/
def RowOk (db : DB) (t : Task) : Prop :=
  ∃ r ∈ db.summaries, r.id = t.summary_id ∧ r.video_path = t.video_path ∧
    (r.status = .pending ∨ r.status = .processing)

/-- The inductive invariant of the no-force system. -/
def Inv (s : Sys) : Prop :=
  (∀ path, active_count s path ≤ 1) ∧
  (∀ t ∈ s.tasks, is_active t.status = true → RowOk s.db t) ∧
  (∀ r ∈ s.db.summaries, r.id < s.db.next_id) ∧
  distinct_ids s.db.summaries ∧
  distinct_paths s.db.summaries ∧
  (∀ t ∈ s.tasks, t.task_id < s.next_task_id) ∧
  s.tasks.Pairwise (fun a b => a.task_id ≠ b.task_id)

/-- Two members with the same key coincide when keys are pairwise distinct. -/
theorem pairwise_key_unique {α β : Type} (f : α → β) (l : List α)
    (h : l.Pairwise (fun a b => f a ≠ f b)) :
    ∀ r1 ∈ l, ∀ r2 ∈ l, f r1 = f r2 → r1 = r2 := by
  induction l with
  | nil => intro r1 h1; cases h1
  | cons a l ih =>
    intro r1 h1 r2 h2 hf
    rcases List.mem_cons.mp h1 with rfl | h1t
    · rcases List.mem_cons.mp h2 with rfl | h2t
      · rfl
      · exact absurd hf ((List.pairwise_cons.mp h).1 r2 h2t)
    · rcases List.mem_cons.mp h2 with rfl | h2t
      · exact absurd hf.symm ((List.pairwise_cons.mp h).1 r1 h1t)
      · exact ih (List.pairwise_cons.mp h).2 r1 h1t r2 h2t hf

/-- Mapping a function that never turns a non-satisfying element into a
satisfying one cannot increase a countP. -/
theorem countP_le_of_pointwise {α : Type} (p : α → Bool) (f : α → α) (l : List α)
    (h : ∀ x ∈ l, p (f x) = true → p x = true) :
    (l.map f).countP p ≤ l.countP p := by
  induction l with
  | nil => simp
  | cons a l ih =>
    have hih := ih fun x hx => h x (List.mem_cons_of_mem a hx)
    rw [List.map_cons, List.countP_cons, List.countP_cons]
    cases hfa : p (f a)
    · rw [if_neg (show ¬ (false = true) by decide)]
      cases hpa : p a
      · rw [if_neg (show ¬ (false = true) by decide)]
        omega
      · rw [if_pos rfl]
        omega
    · have hpa := h a (List.mem_cons_self a l) hfa
      rw [if_pos rfl, if_pos hpa]
      omega

/-- Two distinct satisfying members force a countP of at least two. -/
theorem two_le_countP {α : Type} (p : α → Bool) (l : List α) (x y : α)
    (hx : x ∈ l) (hy : y ∈ l) (hxy : x ≠ y) (hpx : p x = true) (hpy : p y = true) :
    2 ≤ l.countP p := by
  induction l with
  | nil => cases hx
  | cons a l ih =>
    rw [List.countP_cons]
    rcases List.mem_cons.mp hx with rfl | hxt
    · rcases List.mem_cons.mp hy with rfl | hyt
      · exact absurd rfl hxy
      · have h1 : 0 < l.countP p := List.countP_pos_iff.mpr ⟨y, hyt, hpy⟩
        rw [if_pos hpx]
        omega
    · rcases List.mem_cons.mp hy with rfl | hyt
      · have h1 : 0 < l.countP p := List.countP_pos_iff.mpr ⟨x, hxt, hpx⟩
        rw [if_pos hpy]
        omega
      · have := ih hxt hyt
        omega

/-- The empty system satisfies the invariant. -/
theorem inv_init : Inv sys_init := by
  refine ⟨?_, ?_, ?_, ?_, ?_, ?_, ?_⟩ <;>
    simp [sys_init, active_count, distinct_ids, distinct_paths]

/-- C1 counterexample: two Start calls alone, the second with force = true,
form an interleaving of Start calls and worker executions after which TWO
tasks with status pending are associated with /lib/a.mp4: the forced Start
resets the row to pending and enqueues a second task while the first task
is still pending. -/
theorem admission_uniqueness_cex :
    Reach (start_video_summary (start_video_summary sys_init ("/lib/a.mp4").data false true 0).2
      ("/lib/a.mp4").data true true 1).2 ∧
    active_count (start_video_summary (start_video_summary sys_init ("/lib/a.mp4").data false true 0).2
      ("/lib/a.mp4").data true true 1).2 ("/lib/a.mp4").data = 2 := by
  constructor
  · exact Reach.start _ _ true true 1 (Reach.start _ _ false true 0 Reach.init)
  · decide

/-- The handler rewrites the summary table pointwise: rows other than the
one with the handled id are untouched, ids are preserved everywhere, paths
are preserved on the rows of the table, and the id counter is unchanged. -/
theorem pvs_summaries_map (o : Oracle) (db : DB) (sid now pt : Nat)
    (hids : distinct_ids db.summaries) :
    ∃ f : VideoSummary → VideoSummary,
      (process_video_summary o db sid now pt).2.summaries = db.summaries.map f ∧
      (∀ r, r.id ≠ sid → f r = r) ∧
      (∀ r, (f r).id = r.id) ∧
      (∀ r ∈ db.summaries, (f r).video_path = r.video_path) ∧
      (process_video_summary o db sid now pt).2.next_id = db.next_id := by
  unfold process_video_summary fail_with update_summary_status
  dsimp only
  split
  · split
    · rw [List.map_map]
      refine ⟨_, rfl, ?_, ?_, ?_, rfl⟩
      · intro r hr
        simp [Function.comp, if_neg hr]
      · intro r
        by_cases hr : r.id = sid <;> simp [Function.comp, hr]
      · intro r _
        by_cases hr : r.id = sid <;> simp [Function.comp, hr]
    · rw [List.map_map]
      refine ⟨_, rfl, ?_, ?_, ?_, rfl⟩
      · intro r hr
        simp [Function.comp, if_neg hr]
      · intro r
        by_cases hr : r.id = sid <;> simp [Function.comp, hr]
      · intro r _
        by_cases hr : r.id = sid <;> simp [Function.comp, hr]
  · split
    · rw [List.map_map]
      refine ⟨_, rfl, ?_, ?_, ?_, rfl⟩
      · intro r hr
        simp [Function.comp, if_neg hr]
      · intro r
        by_cases hr : r.id = sid <;> simp [Function.comp, hr]
      · intro r _
        by_cases hr : r.id = sid <;> simp [Function.comp, hr]
    · split
      · rw [List.map_map]
        refine ⟨_, rfl, ?_, ?_, ?_, rfl⟩
        · intro r hr
          simp [Function.comp, if_neg hr]
        · intro r
          by_cases hr : r.id = sid <;> simp [Function.comp, hr]
        · intro r _
          by_cases hr : r.id = sid <;> simp [Function.comp, hr]
      · split
        · refine ⟨_, rfl, ?_, ?_, ?_, rfl⟩
          · intro r hr
            simp [if_neg hr]
          · intro r
            by_cases hr : r.id = sid <;> simp [hr]
          · intro r _
            by_cases hr : r.id = sid <;> simp [hr]
        · next vs hvs =>
          rw [List.map_map]
          have hvsid : vs.id = sid := by
            have h := List.find?_some hvs
            simpa using h
          obtain ⟨y, hy, hyeq⟩ := List.mem_map.mp (List.mem_of_find?_eq_some hvs)
          have hyid : y.id = sid := by
            by_cases hyi : y.id = sid
            · exact hyi
            · rw [if_neg hyi] at hyeq
              rw [hyeq] at hyi
              exact absurd hvsid hyi
          refine ⟨_, rfl, ?_, ?_, ?_, rfl⟩
          · intro r hr
            simp [Function.comp, if_neg hr]
          · intro r
            by_cases hr : r.id = sid <;> simp [Function.comp, hr, hvsid]
          · intro r hrmem
            by_cases hr : r.id = sid
            · have hids2 : db.summaries.Pairwise (fun a b => a.id ≠ b.id) := hids
              have hry : r = y := pairwise_key_unique (fun x => x.id) db.summaries hids2
                r hrmem y hy (by show r.id = y.id; rw [hr, hyid])
              have hvp : vs.video_path = r.video_path := by
                rw [← hyeq, if_pos hyid, hry]
              simp [Function.comp, hr, hvp]
            · simp [Function.comp, hr]

/-- Admission with force = false preserves the invariant: a new task is
admitted only when the summary row shows no live work, and at that moment
no active task for the path can exist. -/
theorem inv_start (s : Sys) (path : Str) (fe : Bool) (now : Nat) (h : Inv s) :
    Inv (start_video_summary s path false fe now).2 := by
  obtain ⟨hcnt, hrow, hidb, hids, hpaths, htidb, htids⟩ := h
  have hids2 : s.db.summaries.Pairwise (fun a b => a.id ≠ b.id) := hids
  have hpaths2 : s.db.summaries.Pairwise (fun a b => a.video_path ≠ b.video_path) := hpaths
  unfold start_video_summary add_task reset_row
  dsimp only
  split
  · exact ⟨hcnt, hrow, hidb, hids, hpaths, htidb, htids⟩
  · cases hfind : find_summary s.db path with
    | some ex =>
      have hexmem : ex ∈ s.db.summaries := List.mem_of_find?_eq_some hfind
      have hexpath : ex.video_path = path := by
        have h1 := List.find?_some hfind
        simpa using h1
      dsimp only
      split
      · exact ⟨hcnt, hrow, hidb, hids, hpaths, htidb, htids⟩
      · split
        · exact ⟨hcnt, hrow, hidb, hids, hpaths, htidb, htids⟩
        · next hn1 hn2 =>
          have hne2 : ¬ (ex.status = .pending ∨ ex.status = .processing) := fun hc => hn2 ⟨hc, rfl⟩
          have hnoact : ∀ t ∈ s.tasks, (t.video_path == path && is_active t.status) = false := by
            intro t ht
            cases hpred : (t.video_path == path && is_active t.status)
            · rfl
            · exfalso
              rw [Bool.and_eq_true] at hpred
              have htp : t.video_path = path := by simpa using hpred.1
              obtain ⟨r, hrmem, hrid, hrpath, hrst⟩ := hrow t ht hpred.2
              have hre : r = ex := pairwise_key_unique (fun x => x.video_path) _ hpaths2
                r hrmem ex hexmem (by show r.video_path = ex.video_path; rw [hrpath, htp, hexpath])
              rw [hre] at hrst
              exact hne2 hrst
          have hcnt0 : s.tasks.countP (fun t => t.video_path == path && is_active t.status) = 0 :=
            List.countP_eq_zero.mpr fun t ht => by simp [hnoact t ht]
          refine ⟨?_, ?_, ?_, ?_, ?_, ?_, ?_⟩
          all_goals dsimp only
          · intro p0
            unfold active_count
            dsimp only
            rw [List.countP_append]
            by_cases hp : p0 = path
            · subst hp
              rw [hcnt0]
              have hle : List.countP (fun t : Task => t.video_path == p0 && is_active t.status)
                  ([{ task_id := s.next_task_id, video_path := p0, summary_id := ex.id,
                      status := .pending, result := none, error := none }] : List Task) ≤ 1 := by
                rw [List.countP_cons]
                simp [List.countP_nil, is_active]
              omega
            · have hnt : List.countP (fun t : Task => t.video_path == p0 && is_active t.status)
                  ([{ task_id := s.next_task_id, video_path := path, summary_id := ex.id,
                      status := .pending, result := none, error := none }] : List Task) = 0 := by
                rw [List.countP_cons, List.countP_nil]
                have : (path == p0) = false := by
                  cases hbe : path == p0
                  · rfl
                  · exact absurd (by simpa using hbe : path = p0).symm hp
                simp [this]
              rw [hnt]
              have := hcnt p0
              unfold active_count at this
              omega
          · intro t ht hact
            rcases List.mem_append.mp ht with htl | htr
            · obtain ⟨r, hrmem, hrid, hrpath, hrst⟩ := hrow t htl hact
              by_cases hre : r.id = ex.id
              · exfalso
                have hrex : r = ex := pairwise_key_unique (fun x => x.id) _ hids2
                  r hrmem ex hexmem (by show r.id = ex.id; rw [hre])
                have htp : t.video_path = path := by rw [← hrpath, hrex, hexpath]
                have hbad : (t.video_path == path && is_active t.status) = true := by
                  simp [htp, hact]
                rw [hnoact t htl] at hbad
                cases hbad
              · refine ⟨r, List.mem_map.mpr ⟨r, hrmem, by simp [if_neg hre]⟩, hrid, hrpath, hrst⟩
            · have htn : t = ({ task_id := s.next_task_id, video_path := path, summary_id := ex.id,
                                status := .pending, result := none, error := none } : Task) := by
                simpa using htr
              subst htn
              refine ⟨{ ex with status := .pending, error_message := none, generated_at := now },
                List.mem_map.mpr ⟨ex, hexmem, by simp⟩, by simp, by simp [hexpath], by simp⟩
          · intro r' hr'
            obtain ⟨r, hrmem, hreq⟩ := List.mem_map.mp hr'
            have hide : r'.id = r.id := by
              rw [← hreq]
              by_cases hre : r.id = ex.id <;> simp [hre]
            rw [hide]
            exact hidb r hrmem
          · show List.Pairwise _ (s.db.summaries.map _)
            rw [List.pairwise_map]
            refine hids2.imp ?_
            intro a b hab
            by_cases haid : a.id = ex.id <;> by_cases hbid : b.id = ex.id <;>
              simp [haid, hbid] <;> omega
          · show List.Pairwise _ (s.db.summaries.map _)
            rw [List.pairwise_map]
            refine hpaths2.imp ?_
            intro a b hab
            by_cases haid : a.id = ex.id <;> by_cases hbid : b.id = ex.id <;>
              simp [haid, hbid] <;> exact hab
          · intro t ht
            rcases List.mem_append.mp ht with htl | htr
            · have := htidb t htl
              omega
            · have htn : t.task_id = s.next_task_id := by
                have : t = ({ task_id := s.next_task_id, video_path := path, summary_id := ex.id,
                              status := .pending, result := none, error := none } : Task) := by simpa using htr
                rw [this]
              omega
          · rw [List.pairwise_append]
            refine ⟨htids, List.pairwise_singleton _ _, ?_⟩
            intro a ha b hb
            have hbn : b = ({ task_id := s.next_task_id, video_path := path, summary_id := ex.id,
                              status := .pending, result := none, error := none } : Task) := by simpa using hb
            subst hbn
            have := htidb a ha
            intro hEq
            rw [hEq] at this
            exact lt_irrefl _ this
    | none =>
      have hpne : ∀ x ∈ s.db.summaries, x.video_path ≠ path := by
        intro x hx hxp
        have := List.find?_eq_none.mp hfind x hx
        simp [hxp] at this
      dsimp only
      have hnoact : ∀ t ∈ s.tasks, (t.video_path == path && is_active t.status) = false := by
        intro t ht
        cases hpred : (t.video_path == path && is_active t.status)
        · rfl
        · exfalso
          rw [Bool.and_eq_true] at hpred
          have htp : t.video_path = path := by simpa using hpred.1
          obtain ⟨r, hrmem, hrid, hrpath, hrst⟩ := hrow t ht hpred.2
          exact hpne r hrmem (by rw [hrpath, htp])
      have hcnt0 : s.tasks.countP (fun t => t.video_path == path && is_active t.status) = 0 :=
        List.countP_eq_zero.mpr fun t ht => by simp [hnoact t ht]
      refine ⟨?_, ?_, ?_, ?_, ?_, ?_, ?_⟩
      all_goals dsimp only
      · intro p0
        unfold active_count
        dsimp only
        rw [List.countP_append]
        by_cases hp : p0 = path
        · subst hp
          rw [hcnt0]
          have hle : List.countP (fun t : Task => t.video_path == p0 && is_active t.status)
              ([{ task_id := s.next_task_id, video_path := p0, summary_id := s.db.next_id,
                  status := .pending, result := none, error := none }] : List Task) ≤ 1 := by
            rw [List.countP_cons]
            simp [List.countP_nil, is_active]
          omega
        · have hnt : List.countP (fun t : Task => t.video_path == p0 && is_active t.status)
              ([{ task_id := s.next_task_id, video_path := path, summary_id := s.db.next_id,
                  status := .pending, result := none, error := none }] : List Task) = 0 := by
            rw [List.countP_cons, List.countP_nil]
            have : (path == p0) = false := by
              cases hbe : path == p0
              · rfl
              · exact absurd (by simpa using hbe : path = p0).symm hp
            simp [this]
          rw [hnt]
          have := hcnt p0
          unfold active_count at this
          omega
      · intro t ht hact
        rcases List.mem_append.mp ht with htl | htr
        · obtain ⟨r, hrmem, hrid, hrpath, hrst⟩ := hrow t htl hact
          exact ⟨r, List.mem_append_left _ hrmem, hrid, hrpath, hrst⟩
        · have htn : t = ({ task_id := s.next_task_id, video_path := path, summary_id := s.db.next_id,
                            status := .pending, result := none, error := none } : Task) := by simpa using htr
          subst htn
          refine ⟨_, List.mem_append_right _ (List.mem_singleton_self _), rfl, rfl, Or.inl rfl⟩
      · intro r' hr'
        rcases List.mem_append.mp hr' with hrl | hrr
        · have := hidb r' hrl
          omega
        · have : r'.id = s.db.next_id := by
            have he : r' = ({ id := s.db.next_id, video_path := path, status := .pending,
                              summary := none, transcript := none,
                              model_used := some ("whisper-base+llama3.2:7b").data,
                              audio_duration_seconds := none, processing_time_seconds := none,
                              error_message := none, generated_at := now } : VideoSummary) := by simpa using hrr
            rw [he]
          omega
      · unfold distinct_ids
        rw [List.pairwise_append]
        refine ⟨hids2, List.pairwise_singleton _ _, ?_⟩
        intro a ha b hb
        have hbn : b.id = s.db.next_id := by
          have he : b = ({ id := s.db.next_id, video_path := path, status := .pending,
                           summary := none, transcript := none,
                           model_used := some ("whisper-base+llama3.2:7b").data,
                           audio_duration_seconds := none, processing_time_seconds := none,
                           error_message := none, generated_at := now } : VideoSummary) := by simpa using hb
          rw [he]
        have := hidb a ha
        intro hEq
        rw [hEq, hbn] at this
        exact lt_irrefl _ this
      · unfold distinct_paths
        rw [List.pairwise_append]
        refine ⟨hpaths2, List.pairwise_singleton _ _, ?_⟩
        intro a ha b hb
        have hbn : b.video_path = path := by
          have he : b = ({ id := s.db.next_id, video_path := path, status := .pending,
                           summary := none, transcript := none,
                           model_used := some ("whisper-base+llama3.2:7b").data,
                           audio_duration_seconds := none, processing_time_seconds := none,
                           error_message := none, generated_at := now } : VideoSummary) := by simpa using hb
          rw [he]
        rw [hbn]
        exact hpne a ha
      · intro t ht
        rcases List.mem_append.mp ht with htl | htr
        · have := htidb t htl
          omega
        · have htn : t.task_id = s.next_task_id := by
            have he : t = ({ task_id := s.next_task_id, video_path := path, summary_id := s.db.next_id,
                             status := .pending, result := none, error := none } : Task) := by simpa using htr
            rw [he]
          omega
      · rw [List.pairwise_append]
        refine ⟨htids, List.pairwise_singleton _ _, ?_⟩
        intro a ha b hb
        have hbn : b = ({ task_id := s.next_task_id, video_path := path, summary_id := s.db.next_id,
                          status := .pending, result := none, error := none } : Task) := by simpa using hb
        subst hbn
        have := htidb a ha
        intro hEq
        rw [hEq] at this
        exact lt_irrefl _ this

/-- A worker execution preserves the invariant: it retires one pending
task and finalizes exactly the summary row that task owns. -/
theorem inv_work (o : Oracle) (s : Sys) (tid now pt : Nat) (h : Inv s) :
    Inv (process_task o s tid now pt) := by
  obtain ⟨hcnt, hrow, hidb, hids, hpaths, htidb, htids⟩ := h
  have hids2 : s.db.summaries.Pairwise (fun a b => a.id ≠ b.id) := hids
  have hpaths2 : s.db.summaries.Pairwise (fun a b => a.video_path ≠ b.video_path) := hpaths
  unfold process_task
  cases hfind : s.tasks.find? (fun t => t.task_id == tid) with
  | none => exact ⟨hcnt, hrow, hidb, hids, hpaths, htidb, htids⟩
  | some t =>
    dsimp only
    split
    case isFalse => exact ⟨hcnt, hrow, hidb, hids, hpaths, htidb, htids⟩
    case isTrue hpend =>
      have htmem : t ∈ s.tasks := List.mem_of_find?_eq_some hfind
      have htid : t.task_id = tid := by
        have h1 := List.find?_some hfind
        simpa using h1
      obtain ⟨f, hfsum, hfoff, hfid, hfpath, hfnext⟩ :=
        pvs_summaries_map o s.db t.summary_id now pt hids2
      have gid : ∀ u : Task,
          ((if u.task_id = tid then
              { u with status := .completed,
                       result := some (process_video_summary o s.db t.summary_id now pt).1,
                       error := none }
            else u) : Task).task_id = u.task_id := by
        intro u
        by_cases hx : u.task_id = tid <;> simp [hx]
      refine ⟨?_, ?_, ?_, ?_, ?_, ?_, ?_⟩
      all_goals dsimp only
      · intro p0
        unfold active_count
        dsimp only
        refine le_trans (countP_le_of_pointwise _ _ _ ?_) (hcnt p0)
        intro x hx hpx
        by_cases hxid : x.task_id = tid
        · rw [if_pos hxid] at hpx
          simp [is_active] at hpx
        · rwa [if_neg hxid] at hpx
      · intro u' hu' hact
        obtain ⟨u, hu, hueq⟩ := List.mem_map.mp hu'
        by_cases huid : u.task_id = tid
        · exfalso
          rw [← hueq, if_pos huid] at hact
          simp [is_active] at hact
        · have hueq2 : u' = u := by rw [← hueq, if_neg huid]
          rw [hueq2] at hact ⊢
          obtain ⟨r, hrmem, hrid, hrpath, hrst⟩ := hrow u hu hact
          have hneq : u.summary_id ≠ t.summary_id := by
            intro heq
            obtain ⟨rt, hrtmem, hrtid, hrtpath, hrtst⟩ :=
              hrow t htmem (by simp [hpend, is_active])
            have hrr : r = rt := pairwise_key_unique (fun x => x.id) _ hids2 r hrmem rt hrtmem
              (by show r.id = rt.id; rw [hrid, heq, hrtid])
            have hpath_eq : u.video_path = t.video_path := by rw [← hrpath, hrr, hrtpath]
            have hut : u ≠ t := fun hE => huid (by rw [hE, htid])
            have h2 := two_le_countP (fun x : Task => x.video_path == t.video_path && is_active x.status)
              s.tasks u t hu htmem hut (by simp [hpath_eq, hact]) (by simp [hpend, is_active])
            have h1 := hcnt t.video_path
            unfold active_count at h1
            omega
          refine ⟨r, ?_, hrid, hrpath, hrst⟩
          rw [hfsum]
          exact List.mem_map.mpr ⟨r, hrmem, by rw [hfoff r (by rw [hrid]; exact hneq)]⟩
      · intro r' hr'
        rw [hfsum] at hr'
        obtain ⟨r, hrmem, hreq⟩ := List.mem_map.mp hr'
        rw [hfnext, ← hreq, hfid r]
        exact hidb r hrmem
      · unfold distinct_ids
        rw [hfsum, List.pairwise_map]
        refine hids2.imp ?_
        intro a b hab
        show (f a).id ≠ (f b).id
        rw [hfid a, hfid b]
        exact hab
      · unfold distinct_paths
        rw [hfsum, List.pairwise_map]
        refine List.Pairwise.imp_of_mem ?_ hpaths2
        intro a b hamem hbmem hab
        show (f a).video_path ≠ (f b).video_path
        rw [hfpath a hamem, hfpath b hbmem]
        exact hab
      · intro u' hu'
        obtain ⟨u, hu, hueq⟩ := List.mem_map.mp hu'
        have he : u'.task_id = u.task_id := by rw [← hueq, gid u]
        rw [he]
        exact htidb u hu
      · rw [List.pairwise_map]
        refine htids.imp ?_
        intro a b hab
        show _ ≠ _
        rw [gid a, gid b]
        exact hab

/-- Every state reachable with force = false satisfies the invariant. -/
theorem inv_reachNF (s : Sys) (h : ReachNF s) : Inv s := by
  induction h with
  | init => exact inv_init
  | start s path fe now _ ih => exact inv_start s path fe now ih
  | work s o tid now pt _ ih => exact inv_work o s tid now pt ih

/-- C1 (amended): with every Start call carrying force = false, every
interleaving of Start calls and worker executions (each worker execution
taken as one atomic event) keeps at most one task with status pending or
processing per videoPath; a Start with force = true can admit a second
active task for a video that already has one, as the counterexample shows. -/
theorem admission_uniqueness_noforce (s : Sys) (h : ReachNF s) (path : Str) :
    active_count s path ≤ 1 :=
  (inv_reachNF s h).1 path

/-- C1 witness: the amended theorem applied to the state reached by one
admitted Start call. -/
theorem admission_uniqueness_noforce_witness :
    active_count (start_video_summary sys_init ("/lib/a.mp4").data false true 0).2 ("/lib/a.mp4").data ≤ 1 :=
  admission_uniqueness_noforce _
    (ReachNF.start sys_init ("/lib/a.mp4").data true 0 ReachNF.init) ("/lib/a.mp4").data

end VideoSite
